import Mathlib

/-!
Verification of the input-method wiring and ranking subsystem of the server
repository, shallowly embedded from `src/nodes/input/method.rs`, together with
the toplevel start-data extraction of `src/wayland/xdg_shell.rs`.

Collaborator components that live outside the provided sources (the weak
registry, the life-linked node map, alias construction, the input payload
distance metrics, the ranking consumer) are modelled from the specification;
each such definition carries a doc comment starting with `Modelled from the
spec:`.
-/

namespace Stardust

/-- The view of a live node obtained by upgrading a weak reference:
identity, stable uid, namespace path and (optionally resolvable) owning
client. `none` at a use site models a dead weak reference. -/
structure NodeView where
  id : Nat
  uid : String
  path : String
  client : Option Nat
  deriving DecidableEq, Repr

/-- An alias allowlist: remote-callable method names and emittable signal
names (`AliasInfo` with `server_signals` / `server_methods`). -/
structure AliasInfo where
  server_signals : List String
  server_methods : List String
  deriving DecidableEq, Repr

/-- Modelled from the spec: `FIELD_ALIAS_INFO` (defined in the fields module,
which is not under src/) is "a fixed, shared allowlist" used for every nested
Field alias; only its fixedness matters to the claims, its exact contents are
chosen to expose the Field distance operation of section 6. -/
def FIELD_ALIAS_INFO : AliasInfo :=
  { server_signals := [], server_methods := ["distance"] }

/-- A constructed alias: the requesting client, the mount path of the alias
node, the id of the target node, the allowlist, and the enabled flag. -/
structure Alias where
  client : Nat
  path : String
  target : Nat
  info : AliasInfo
  enabled : Bool
  deriving DecidableEq, Repr

/-- Modelled from the spec: `Alias::create` (alias module, not under src/)
takes the requesting client, a mount path, a local name, the target node and
the allowlist; it can fail (dead client connection, unresolvable target owner,
mount-path collision), which callers must tolerate as a no-op.  The failure
condition depends on state outside this core, so it is abstracted into the
boolean oracle `ok`; on success the alias node is mounted at
`parentPath ++ "/" ++ name` and starts enabled. -/
def Alias.create (client : Nat) (parentPath : String) (name : String)
    (target : NodeView) (info : AliasInfo) (ok : Bool) : Option Alias :=
  match ok with
  | true =>
    some { client := client, path := parentPath ++ "/" ++ name,
           target := target.id, info := info, enabled := true }
  | false => none

/-- Modelled from the spec: the Life-Linked Map is a keyed collection of
node proxies (`add(key, strong_reference)` / `remove(key)`); it is a map, so
adding under an existing key replaces that entry.  Embedded as an association
list whose insert erases any previous binding of the key. -/
def llmAdd {α : Type} [DecidableEq α] (m : List (α × Alias)) (k : α)
    (v : Alias) : List (α × Alias) :=
  (k, v) :: m.filter (fun p => !decide (p.1 = k))

/-- Modelled from the spec: removal from a Life-Linked Map drops every entry
under the key. -/
def llmRemove {α : Type} [DecidableEq α] (m : List (α × Alias)) (k : α) :
    List (α × Alias) :=
  m.filter (fun p => !decide (p.1 = k))

/-- Lookup in a Life-Linked Map. -/
def llmGet {α : Type} [DecidableEq α] (m : List (α × Alias)) (k : α) :
    Option Alias :=
  (m.find? (fun p => decide (p.1 = k))).map (fun p => p.2)

/-- Number of entries a Life-Linked Map holds under a key. -/
def llmCount {α : Type} [DecidableEq α] (m : List (α × Alias)) (k : α) : Nat :=
  (m.filter (fun p => decide (p.1 = k))).length

/-- Modelled from the spec: the captures `Registry<InputHandler>` is a set of
non-owning references; membership is tested by identity, modelled here by the
stable uid of the handler. -/
def regContains (r : List String) (u : String) : Bool :=
  decide (u ∈ r)

/-- Modelled from the spec: `Registry::add_raw` inserts into the set; repeated
capture calls for the same handler are no-ops, so inserting a present element
leaves the set unchanged. -/
def regAddRaw (r : List String) (u : String) : List String :=
  if u ∈ r then r else u :: r

/-- A distance Field capability: its identity and the (possibly dead) node of
its spatial reference, as read by `handler.field.spatial_ref().node.upgrade()`. -/
structure Field where
  id : Nat
  node : Option NodeView
  deriving DecidableEq, Repr

/-- Modelled from the spec: an input payload variant
(`InputDataType`, pointer/hand/tip, not under src/) defines its own
field-aware distance metric from a spatial anchor to a Field. -/
structure InputDataType where
  metric : Nat → Field → ℚ

/-- Modelled from the spec: `InputDataTrait::compare_distance` delegates to
the distance metric of the active payload variant. -/
def InputDataType.compare_distance (d : InputDataType) (spatial : Nat)
    (field : Field) : ℚ :=
  d.metric spatial field

/-- Modelled from the spec: `InputDataTrait::true_distance` is the same
computed metric, "uncaptured, unscaled". -/
def InputDataType.true_distance (d : InputDataType) (spatial : Nat)
    (field : Field) : ℚ :=
  d.metric spatial field

/-- An input handler: its (weak) node, stable uid, Field, and the map of
per-method aliases keyed by the address-derived identity of the method. -/
structure InputHandler where
  node : Option NodeView
  uid : String
  field : Field
  method_aliases : List (Nat × Alias)
  deriving DecidableEq, Repr

/-- An input method, as in `struct InputMethod`: weak node back-reference,
uid, enabled flag, spatial anchor, payload, datamap, captures set, per-handler
alias map and optional manual handler order.  `addr` is the address-derived
identity (`self as *const InputMethod as usize`) used as a map key inside
handlers. -/
structure InputMethod where
  node : Option NodeView
  uid : String
  addr : Nat
  enabled : Bool
  spatial : Nat
  data : InputDataType
  datamap : Nat
  captures : List String
  handler_aliases : List (String × Alias)
  handler_order : Option (List InputHandler)

/-- Oracle for the fallible external steps of one wiring attempt: whether the
three alias creations succeed. -/
structure AliasEnv where
  handlerAliasOk : Bool
  fieldAliasOk : Bool
  methodAliasOk : Bool
  deriving DecidableEq, Repr

/-- One-way notices sent to the owning client of a method
(`input_method_client::create_handler` / `destroy_handler`). -/
inductive Notice where
  | createHandler (methodNode : Nat) (handlerUid : String) (handlerNode : Nat)
  | destroyHandler (methodNode : Nat) (handlerUid : String)
  deriving DecidableEq, Repr

/-- `InputMethod::make_alias`: create the handler→method alias (allowlist
`server_signals = ["capture"]`), store it disabled in the method-alias map of
the handler under the address-derived key of the method.  Every failing
upgrade or failed alias creation returns with the handler unchanged. -/
def InputMethod.make_alias (m : InputMethod) (h : InputHandler)
    (env : AliasEnv) : InputHandler :=
  match m.node with
  | none => h
  | some method_node =>
    match h.node with
    | none => h
    | some handler_node =>
      match handler_node.client with
      | none => h
      | some client =>
        match Alias.create client handler_node.path m.uid method_node
            { server_signals := ["capture"], server_methods := [] }
            env.methodAliasOk with
        | none => h
        | some method_alias =>
          let method_alias := { method_alias with enabled := false }
          { h with method_aliases := llmAdd h.method_aliases m.addr method_alias }

/-- `InputMethod::handle_new_handler`: create the method→handler alias
(allowlist `server_methods = ["get_transform"]`) under the handler uid; if the
node of the Field of the handler is alive, create the nested field alias under
`uid ++ "-field"` mounted below the handler alias with the fixed shared
allowlist; finally send the best-effort creation notice.  Each failing step
returns early, keeping the state reached so far. -/
def InputMethod.handle_new_handler (m : InputMethod) (h : InputHandler)
    (env : AliasEnv) : InputMethod × List Notice :=
  match m.node with
  | none => (m, [])
  | some method_node =>
    match method_node.client with
    | none => (m, [])
    | some method_client =>
      match h.node with
      | none => (m, [])
      | some handler_node =>
        match Alias.create method_client method_node.path h.uid handler_node
            { server_signals := [], server_methods := ["get_transform"] }
            env.handlerAliasOk with
        | none => (m, [])
        | some handler_alias =>
          let m1 := { m with
            handler_aliases := llmAdd m.handler_aliases h.uid handler_alias }
          match h.field.node with
          | some handler_field_node =>
            match Alias.create method_client handler_alias.path "field"
                handler_field_node FIELD_ALIAS_INFO env.fieldAliasOk with
            | none => (m1, [])
            | some rx_field_alias =>
              let m2 := { m1 with
                handler_aliases :=
                  llmAdd m1.handler_aliases (h.uid ++ "-field") rx_field_alias }
              (m2, [Notice.createHandler method_node.id h.uid handler_node.id])
          | none => (m1, [Notice.createHandler method_node.id h.uid handler_node.id])

/-- `InputMethod::handle_drop_handler`: remove the handler-uid entry and the
`uid ++ "-field"` entry from the handler-alias map of the method, then send
the best-effort destruction notice (skipped when the method node is gone). -/
def InputMethod.handle_drop_handler (m : InputMethod) (h : InputHandler) :
    InputMethod × List Notice :=
  let m1 := { m with
    handler_aliases :=
      llmRemove (llmRemove m.handler_aliases h.uid) (h.uid ++ "-field") }
  match m.node with
  | none => (m1, [])
  | some tx_node => (m1, [Notice.destroyHandler tx_node.id h.uid])

/-- Modelled from the spec: the Life-Linked Map of a handler is owned by the
handler, so destroying the handler discards all of its entries along with the
weak node reference. -/
def InputHandler.destroyed (h : InputHandler) : InputHandler :=
  { h with node := none, method_aliases := [] }

/-- The wiring loop of `InputMethod::add_to`: for every handler of the
registry snapshot run `handle_new_handler` then `make_alias`, threading the
method state, collecting the updated handlers and the emitted notices. -/
def wireAll (env : String → AliasEnv) (m : InputMethod) :
    List InputHandler → InputMethod × List InputHandler × List Notice
  | [] => (m, [], [])
  | h :: rest =>
    let step := m.handle_new_handler h (env h.uid)
    let h1 := step.1.make_alias h (env h.uid)
    let next := wireAll env step.1 rest
    (next.1, h1 :: next.2.1, step.2 ++ next.2.2)

/-- `InputMethod::add_to`: build the method (enabled, empty captures, empty
alias map, automatic handler order) for the node and wire it against every
live handler in the registry snapshot. -/
def InputMethod.add_to (node : NodeView) (addr : Nat) (spatial : Nat)
    (data : InputDataType) (datamap : Nat) (registry : List InputHandler)
    (env : String → AliasEnv) : InputMethod × List InputHandler × List Notice :=
  let method : InputMethod :=
    { node := some node, uid := node.uid, addr := addr, enabled := true,
      spatial := spatial, data := data, datamap := datamap, captures := [],
      handler_aliases := [], handler_order := none }
  wireAll env method registry

/-- `InputMethod::compare_distance`: the payload-variant distance to the Field
of the handler, halved when the handler is in the captures set. -/
def InputMethod.compare_distance (m : InputMethod) (toH : InputHandler) : ℚ :=
  let distance := m.data.compare_distance m.spatial toH.field
  if regContains m.captures toH.uid then distance * (1 / 2) else distance

/-- `InputMethod::true_distance`: the unscaled payload-variant distance to a
Field. -/
def InputMethod.true_distance (m : InputMethod) (toF : Field) : ℚ :=
  m.data.true_distance m.spatial toF

/-- A node as seen by the remote-call surface: its optional InputMethod and
InputHandler aspects (`get_aspect::<T>()`). -/
structure NodeA where
  inputMethod : Option InputMethod
  inputHandler : Option InputHandler

/-- `Node::get_aspect::<InputMethod>()`: fails with a not-found condition when
the aspect is absent. -/
def NodeA.get_aspect_method (n : NodeA) : Except String InputMethod :=
  match n.inputMethod with
  | some m => Except.ok m
  | none => Except.error "aspect InputMethod not found"

/-- `Node::get_aspect::<InputHandler>()`: fails with a not-found condition
when the aspect is absent. -/
def NodeA.get_aspect_handler (n : NodeA) : Except String InputHandler :=
  match n.inputHandler with
  | some h => Except.ok h
  | none => Except.error "aspect InputHandler not found"

/-- Replace the InputMethod aspect of a node. -/
def NodeA.withMethod (n : NodeA) (m : InputMethod) : NodeA :=
  { n with inputMethod := some m }

/-- `InputMethodAspect::capture`: resolve the InputMethod aspect of the
calling node and the InputHandler aspect of the referenced node (either
failure is returned as an error, leaving the node unchanged), then add the
handler to the captures registry and succeed. -/
def InputMethod.capture (node : NodeA) (handler : NodeA) :
    Except String Unit × NodeA :=
  match node.get_aspect_method with
  | Except.error e => (Except.error e, node)
  | Except.ok input_method =>
    match handler.get_aspect_handler with
    | Except.error e => (Except.error e, node)
    | Except.ok input_handler =>
      (Except.ok (),
       node.withMethod
         { input_method with
           captures := regAddRaw input_method.captures input_handler.uid })

/-- `InputMethodAspect::set_handler_order`: resolve the InputMethod aspect
(error when absent); a `none` list clears the override; otherwise keep, in
order, exactly the entries whose node resolves the InputHandler aspect
(`filter_map(get_aspect.ok)`) and store them as the override. -/
def InputMethod.set_handler_order (node : NodeA)
    (handlers : Option (List NodeA)) : Except String Unit × NodeA :=
  match node.get_aspect_method with
  | Except.error e => (Except.error e, node)
  | Except.ok input_method =>
    match handlers with
    | none =>
      (Except.ok (), node.withMethod { input_method with handler_order := none })
    | some hs =>
      let resolved := hs.filterMap (fun p => p.inputHandler)
      (Except.ok (),
       node.withMethod { input_method with handler_order := some resolved })

/-- `InputMethodAspect::set_input`: resolve the InputMethod aspect and replace
the payload wholesale. -/
def InputMethod.set_input (node : NodeA) (input : InputDataType) :
    Except String Unit × NodeA :=
  match node.get_aspect_method with
  | Except.error e => (Except.error e, node)
  | Except.ok input_method =>
    (Except.ok (), node.withMethod { input_method with data := input })

/-- `InputMethodAspect::set_datamap`: resolve the InputMethod aspect and
replace the datamap wholesale. -/
def InputMethod.set_datamap (node : NodeA) (datamap : Nat) :
    Except String Unit × NodeA :=
  match node.get_aspect_method with
  | Except.error e => (Except.error e, node)
  | Except.ok input_method =>
    (Except.ok (), node.withMethod { input_method with datamap := datamap })

/-- Modelled from the spec: the ranking consumer reverts to automatic
distance-based ranking exactly when the stored override is absent or the
stored list is empty ("supplying an empty/absent list reverts to automatic
ranking"). -/
def usesAutomaticRanking (order : Option (List InputHandler)) : Bool :=
  match order with
  | none => true
  | some l => l.isEmpty

/-- The stored handler-order override of a node, when it carries the
InputMethod aspect. -/
def handlerOrderOf (n : NodeA) : Option (List InputHandler) :=
  match n.inputMethod with
  | some m => m.handler_order
  | none => none

/-- The captures set of a node, when it carries the InputMethod aspect. -/
def capturesOf (n : NodeA) : List String :=
  match n.inputMethod with
  | some m => m.captures
  | none => []

/-- The valid entries of a handler-order request, in order: the spec-side
reading of "entries whose node lacks the Input Handler capability are dropped,
preserving the order of the remaining entries". -/
def validHandlers : List NodeA → List InputHandler
  | [] => []
  | n :: rest =>
    match n.inputHandler with
    | some h => h :: validHandlers rest
    | none => validHandlers rest

/-- Key-disjointness of two handlers: their uids differ and neither uid
collides with the `-field` suffixed key of the other. -/
def keyDisjoint (a b : InputHandler) : Prop :=
  a.uid ≠ b.uid ∧ a.uid ≠ b.uid ++ "-field" ∧ a.uid ++ "-field" ≠ b.uid

/-- A concrete method node for evaluation. -/
def nodeM : NodeView := { id := 1, uid := "m1", path := "/m", client := some 10 }

/-- A concrete handler node for evaluation. -/
def nodeH : NodeView := { id := 2, uid := "h1", path := "/h", client := some 20 }

/-- A concrete field node for evaluation. -/
def nodeF : NodeView := { id := 3, uid := "f1", path := "/f", client := some 20 }

/-- A concrete payload whose metric is constantly 4. -/
def dataC : InputDataType := { metric := fun _ _ => 4 }

/-- A concrete input method for evaluation. -/
def mC : InputMethod :=
  { node := some nodeM, uid := "m1", addr := 100, enabled := true, spatial := 0,
    data := dataC, datamap := 0, captures := [], handler_aliases := [],
    handler_order := none }

/-- A concrete input handler for evaluation. -/
def hC : InputHandler :=
  { node := some nodeH, uid := "h1", field := { id := 3, node := some nodeF },
    method_aliases := [] }

/-- An environment where every alias creation succeeds. -/
def envOk : AliasEnv :=
  { handlerAliasOk := true, fieldAliasOk := true, methodAliasOk := true }

/-- An environment where only the nested field alias creation fails. -/
def envFieldFail : AliasEnv :=
  { handlerAliasOk := true, fieldAliasOk := false, methodAliasOk := true }

/-- A concrete node carrying the InputMethod aspect. -/
def nodeAM : NodeA := { inputMethod := some mC, inputHandler := none }

/-- A concrete node carrying the InputHandler aspect. -/
def nodeAH : NodeA := { inputMethod := none, inputHandler := some hC }

/-- The surface data of an xdg toplevel (`XdgToplevelSurfaceData`): title and
app id as committed by the client. -/
structure XdgToplevelSurfaceData where
  title : Option String
  app_id : Option String
  deriving DecidableEq, Repr

/-- The title / app-id portion of `ToplevelInfo`. -/
structure ToplevelInfo where
  title : Option String
  app_id : Option String
  deriving DecidableEq, Repr

/-- `XdgBackend::start_data`, restricted to the title / app-id fields of the
returned `ToplevelInfo`: the local `app_id` is read from the `title` field of
the toplevel surface data and the local `title` from its `app_id` field, and
both locals are stored as-is into the result. -/
def XdgBackend.start_data (surface : XdgToplevelSurfaceData) : ToplevelInfo :=
  let app_id := surface.title
  let title := surface.app_id
  { title := title, app_id := app_id }

/-! ### Helper lemmas about the modelled collections -/

theorem string_ne_append_field (a : String) : a ≠ a ++ "-field" := by
  intro h
  have hl := congrArg String.length h
  simp [String.length_append] at hl
  exact (by decide : ("-field" : String).length ≠ 0) hl

theorem string_append_field_inj (a b : String) (h : a ++ "-field" = b ++ "-field") :
    a = b := by
  have hd := congrArg String.data h
  simp [String.data_append] at hd
  exact String.ext hd

theorem llmGet_add_self {α : Type} [DecidableEq α] (m : List (α × Alias))
    (k : α) (v : Alias) : llmGet (llmAdd m k v) k = some v := by
  simp [llmGet, llmAdd]

theorem find_key_filter_ne {α : Type} [DecidableEq α] (m : List (α × Alias))
    (k k' : α) (hne : k' ≠ k) :
    (m.filter (fun p => !decide (p.1 = k))).find? (fun p => decide (p.1 = k')) =
      m.find? (fun p => decide (p.1 = k')) := by
  induction m with
  | nil => rfl
  | cons a rest ih =>
    by_cases hk : a.1 = k
    · have hk' : ¬ a.1 = k' := fun hc => hne (hc ▸ hk)
      rw [List.filter_cons_of_neg (by simp [hk]),
        List.find?_cons_of_neg _ (by simp [hk']), ih]
    · by_cases hk' : a.1 = k'
      · rw [List.filter_cons_of_pos (by simp [hk]),
          List.find?_cons_of_pos _ (by simp [hk']),
          List.find?_cons_of_pos _ (by simp [hk'])]
      · rw [List.filter_cons_of_pos (by simp [hk]),
          List.find?_cons_of_neg _ (by simp [hk']),
          List.find?_cons_of_neg _ (by simp [hk']), ih]

theorem llmGet_add_ne {α : Type} [DecidableEq α] (m : List (α × Alias))
    (k k' : α) (v : Alias) (hne : k' ≠ k) :
    llmGet (llmAdd m k v) k' = llmGet m k' := by
  unfold llmGet llmAdd
  rw [List.find?_cons_of_neg _ (by simp [Ne.symm hne]), find_key_filter_ne m k k' hne]

theorem llmGet_remove_self {α : Type} [DecidableEq α] (m : List (α × Alias))
    (k : α) : llmGet (llmRemove m k) k = none := by
  unfold llmGet llmRemove
  rw [List.find?_eq_none.mpr]
  · rfl
  · intro p hp
    simp only [List.mem_filter] at hp
    simpa using hp.2

theorem llmGet_remove_ne {α : Type} [DecidableEq α] (m : List (α × Alias))
    (k k' : α) (hne : k' ≠ k) : llmGet (llmRemove m k) k' = llmGet m k' := by
  unfold llmGet llmRemove
  rw [find_key_filter_ne m k k' hne]

theorem llmCount_add_self {α : Type} [DecidableEq α] (m : List (α × Alias))
    (k : α) (v : Alias) : llmCount (llmAdd m k v) k = 1 := by
  unfold llmCount llmAdd
  rw [List.filter_cons_of_pos (by simp), List.filter_filter]
  simp

theorem llmCount_add_ne {α : Type} [DecidableEq α] (m : List (α × Alias))
    (k k' : α) (v : Alias) (hne : k' ≠ k) :
    llmCount (llmAdd m k v) k' = llmCount m k' := by
  unfold llmCount llmAdd
  rw [List.filter_cons_of_neg (by simp [Ne.symm hne]), List.filter_filter]
  congr 1
  apply List.filter_congr
  intro p _
  by_cases hp : p.1 = k'
  · have hpk : ¬ p.1 = k := fun hc => hne (by rw [← hp, hc])
    simp [hp, hpk, hne]
  · simp [hp]

theorem regAddRaw_mem (s : List String) (u v : String) (hv : v ∈ s) :
    v ∈ regAddRaw s u := by
  unfold regAddRaw
  split
  · exact hv
  · exact List.mem_cons_of_mem _ hv

theorem regAddRaw_self_mem (s : List String) (u : String) : u ∈ regAddRaw s u := by
  unfold regAddRaw
  split
  · assumption
  · exact List.mem_cons_self _ _

theorem regAddRaw_idem (s : List String) (u : String) :
    regAddRaw (regAddRaw s u) u = regAddRaw s u := by
  unfold regAddRaw
  split
  · simp [*]
  · simp

theorem filterMap_eq_validHandlers (l : List NodeA) :
    l.filterMap (fun p => p.inputHandler) = validHandlers l := by
  induction l with
  | nil => rfl
  | cons n rest ih =>
    cases hn : n.inputHandler <;>
      simp [validHandlers, List.filterMap_cons, hn, ih]

/-! ### Structural lemmas about the wiring operations -/

theorem handle_new_handler_shape (m : InputMethod) (h : InputHandler)
    (env : AliasEnv) :
    ∃ al, (m.handle_new_handler h env).1 = { m with handler_aliases := al } := by
  unfold InputMethod.handle_new_handler
  repeat' split
  all_goals exact ⟨_, rfl⟩

theorem handle_new_handler_keeps_core (m : InputMethod) (h : InputHandler)
    (env : AliasEnv) :
    (m.handle_new_handler h env).1.node = m.node ∧
    (m.handle_new_handler h env).1.uid = m.uid ∧
    (m.handle_new_handler h env).1.addr = m.addr := by
  obtain ⟨al, hal⟩ := handle_new_handler_shape m h env
  rw [hal]
  exact ⟨rfl, rfl, rfl⟩

theorem handle_new_handler_get_ne (m : InputMethod) (h : InputHandler)
    (env : AliasEnv) (k : String) (hk1 : k ≠ h.uid)
    (hk2 : k ≠ h.uid ++ "-field") :
    llmGet (m.handle_new_handler h env).1.handler_aliases k =
      llmGet m.handler_aliases k := by
  unfold InputMethod.handle_new_handler
  repeat' split
  all_goals dsimp only
  all_goals first
    | rfl
    | exact llmGet_add_ne _ _ _ _ hk1
    | (show llmGet (llmAdd (llmAdd m.handler_aliases h.uid _)
          (h.uid ++ "-field") _) k = llmGet m.handler_aliases k
       rw [llmGet_add_ne _ _ _ _ hk2, llmGet_add_ne _ _ _ _ hk1])

theorem handle_new_handler_uid_entry (m : InputMethod) (h : InputHandler)
    (env : AliasEnv) (mn hn : NodeView) (mc : Nat)
    (hm : m.node = some mn) (hmc : mn.client = some mc)
    (hh : h.node = some hn) (hok : env.handlerAliasOk = true) :
    llmGet (m.handle_new_handler h env).1.handler_aliases h.uid =
      some { client := mc, path := mn.path ++ "/" ++ h.uid, target := hn.id,
             info := { server_signals := [], server_methods := ["get_transform"] },
             enabled := true } ∧
    llmCount (m.handle_new_handler h env).1.handler_aliases h.uid = 1 := by
  simp only [InputMethod.handle_new_handler, hm, hmc, hh, hok, Alias.create]
  cases hf : h.field.node with
  | none => exact ⟨llmGet_add_self _ _ _, llmCount_add_self _ _ _⟩
  | some fn =>
    cases hfo : env.fieldAliasOk with
    | false => exact ⟨llmGet_add_self _ _ _, llmCount_add_self _ _ _⟩
    | true =>
      constructor
      · rw [llmGet_add_ne _ _ _ _ (string_ne_append_field h.uid), llmGet_add_self]
      · rw [llmCount_add_ne _ _ _ _ (string_ne_append_field h.uid), llmCount_add_self]

theorem handle_new_handler_field_entry (m : InputMethod) (h : InputHandler)
    (env : AliasEnv) (mn hn fn : NodeView) (mc : Nat)
    (hm : m.node = some mn) (hmc : mn.client = some mc)
    (hh : h.node = some hn) (hok : env.handlerAliasOk = true)
    (hf : h.field.node = some fn) (hfo : env.fieldAliasOk = true) :
    llmGet (m.handle_new_handler h env).1.handler_aliases (h.uid ++ "-field") =
      some { client := mc, path := mn.path ++ "/" ++ h.uid ++ "/" ++ "field",
             target := fn.id, info := FIELD_ALIAS_INFO, enabled := true } := by
  simp only [InputMethod.handle_new_handler, hm, hmc, hh, hok, hf, hfo,
    Alias.create]
  exact llmGet_add_self _ _ _

theorem make_alias_entry (m : InputMethod) (h : InputHandler) (env : AliasEnv)
    (mn hn : NodeView) (c : Nat)
    (hm : m.node = some mn) (hh : h.node = some hn) (hc : hn.client = some c)
    (hok : env.methodAliasOk = true) :
    llmGet (m.make_alias h env).method_aliases m.addr =
      some { client := c, path := hn.path ++ "/" ++ m.uid, target := mn.id,
             info := { server_signals := ["capture"], server_methods := [] },
             enabled := false } ∧
    llmCount (m.make_alias h env).method_aliases m.addr = 1 := by
  simp only [InputMethod.make_alias, hm, hh, hc, hok, Alias.create]
  exact ⟨llmGet_add_self _ _ _, llmCount_add_self _ _ _⟩

theorem handle_drop_handler_removes (m : InputMethod) (h : InputHandler) :
    llmGet ((m.handle_drop_handler h).1).handler_aliases h.uid = none ∧
    llmGet ((m.handle_drop_handler h).1).handler_aliases (h.uid ++ "-field") =
      none := by
  have hal : (m.handle_drop_handler h).1.handler_aliases =
      llmRemove (llmRemove m.handler_aliases h.uid) (h.uid ++ "-field") := by
    unfold InputMethod.handle_drop_handler
    repeat' split
    all_goals rfl
  rw [hal, llmGet_remove_ne _ _ _ (string_ne_append_field h.uid),
    llmGet_remove_self]
  exact ⟨rfl, llmGet_remove_self _ _⟩

theorem wireAll_preserves_get (env : String → AliasEnv) (l : List InputHandler)
    (m : InputMethod) (k : String)
    (hk : ∀ h' ∈ l, k ≠ h'.uid ∧ k ≠ h'.uid ++ "-field") :
    llmGet (wireAll env m l).1.handler_aliases k = llmGet m.handler_aliases k := by
  induction l generalizing m with
  | nil => rfl
  | cons h rest ih =>
    have hh := hk h (List.mem_cons_self _ _)
    have hrest : ∀ h' ∈ rest, k ≠ h'.uid ∧ k ≠ h'.uid ++ "-field" :=
      fun h' hm => hk h' (List.mem_cons_of_mem _ hm)
    show llmGet (wireAll env (m.handle_new_handler h (env h.uid)).1
        rest).1.handler_aliases k = _
    rw [ih _ hrest, handle_new_handler_get_ne _ _ _ _ hh.1 hh.2]

theorem wireAll_wires_member (env : String → AliasEnv) (mn : NodeView)
    (mc : Nat) (hmc : mn.client = some mc) (h : InputHandler) (hn : NodeView)
    (hhn : h.node = some hn) (hok : (env h.uid).handlerAliasOk = true) :
    ∀ (l : List InputHandler) (m : InputMethod), m.node = some mn →
      l.Pairwise keyDisjoint → h ∈ l →
      (llmGet (wireAll env m l).1.handler_aliases h.uid =
        some { client := mc, path := mn.path ++ "/" ++ h.uid, target := hn.id,
               info := { server_signals := [],
                         server_methods := ["get_transform"] },
               enabled := true } ∧
      (∀ fn, h.field.node = some fn → (env h.uid).fieldAliasOk = true →
        llmGet (wireAll env m l).1.handler_aliases (h.uid ++ "-field") =
          some { client := mc,
                 path := mn.path ++ "/" ++ h.uid ++ "/" ++ "field",
                 target := fn.id, info := FIELD_ALIAS_INFO,
                 enabled := true })) := by
  intro l
  induction l with
  | nil =>
    intro m _ _ hmem
    cases hmem
  | cons h0 rest ih =>
    intro m hm hdisj hmem
    obtain ⟨hd, hdtail⟩ := List.pairwise_cons.mp hdisj
    rcases List.mem_cons.mp hmem with heq | hmem'
    · subst heq
      have hk1 : ∀ h' ∈ rest, h.uid ≠ h'.uid ∧ h.uid ≠ h'.uid ++ "-field" :=
        fun h' hm' => ⟨(hd h' hm').1, (hd h' hm').2.1⟩
      have hk2 : ∀ h' ∈ rest, h.uid ++ "-field" ≠ h'.uid ∧
          h.uid ++ "-field" ≠ h'.uid ++ "-field" :=
        fun h' hm' => ⟨(hd h' hm').2.2,
          fun hc => (hd h' hm').1 (string_append_field_inj _ _ hc)⟩
      constructor
      · show llmGet (wireAll env (m.handle_new_handler h (env h.uid)).1
            rest).1.handler_aliases h.uid = _
        rw [wireAll_preserves_get env rest _ _ hk1]
        exact (handle_new_handler_uid_entry m h (env h.uid) mn hn mc hm hmc
          hhn hok).1
      · intro fn hf hfo
        show llmGet (wireAll env (m.handle_new_handler h (env h.uid)).1
            rest).1.handler_aliases (h.uid ++ "-field") = _
        rw [wireAll_preserves_get env rest _ _ hk2]
        exact handle_new_handler_field_entry m h (env h.uid) mn hn fn mc hm
          hmc hhn hok hf hfo
    · have hcore := handle_new_handler_keeps_core m h0 (env h0.uid)
      have hm' : (m.handle_new_handler h0 (env h0.uid)).1.node = some mn := by
        rw [hcore.1, hm]
      exact ih (m.handle_new_handler h0 (env h0.uid)).1 hm' hdtail hmem'

/-! ### Claim theorems -/

/-- C1: for every input method and input handler, under any fixed
payload/spatial/field configuration, `compare_distance` returns the true
distance halved exactly when the handler is in the captures set of the
method, and the true distance itself otherwise. -/
theorem compare_distance_halves_when_captured (m : InputMethod)
    (h : InputHandler) :
    m.compare_distance h =
      if regContains m.captures h.uid then m.true_distance h.field / 2
      else m.true_distance h.field := by
  unfold InputMethod.compare_distance InputMethod.true_distance
    InputDataType.compare_distance InputDataType.true_distance
  rcases hb : regContains m.captures h.uid
  · simp [hb]
  · simp only [hb, if_true]
    ring

/-- C2: after wiring a live method against a live handler, the method holds
exactly one alias of the handler (keyed by the handler uid, targeting the
handler node) and the handler holds exactly one alias of the method (keyed by
the address-derived key of the method, targeting the method node); dropping
the handler removes the method-side entries (both the handler entry and the
nested field entry), and destroying the handler discards its own map
entry for the method. -/
theorem wired_pair_unique_aliases (m : InputMethod) (h : InputHandler)
    (env : AliasEnv) (mn hn : NodeView) (mc hcl : Nat)
    (hm : m.node = some mn) (hmc : mn.client = some mc)
    (hh : h.node = some hn) (hhc : hn.client = some hcl)
    (hok1 : env.handlerAliasOk = true) (hok3 : env.methodAliasOk = true) :
    llmCount (m.handle_new_handler h env).1.handler_aliases h.uid = 1 ∧
    ((llmGet (m.handle_new_handler h env).1.handler_aliases h.uid).map
      (fun a => a.target)) = some hn.id ∧
    llmCount ((m.handle_new_handler h env).1.make_alias h
      env).method_aliases m.addr = 1 ∧
    ((llmGet ((m.handle_new_handler h env).1.make_alias h
      env).method_aliases m.addr).map (fun a => a.target)) = some mn.id ∧
    llmGet (((m.handle_new_handler h env).1.handle_drop_handler
      h).1).handler_aliases h.uid = none ∧
    llmGet (((m.handle_new_handler h env).1.handle_drop_handler
      h).1).handler_aliases (h.uid ++ "-field") = none ∧
    (((m.handle_new_handler h env).1.make_alias h
      env).destroyed).method_aliases = [] := by
  have hcore := handle_new_handler_keeps_core m h env
  have hm1 : (m.handle_new_handler h env).1.node = some mn := by
    rw [hcore.1, hm]
  have huid := handle_new_handler_uid_entry m h env mn hn mc hm hmc hh hok1
  have hmk := make_alias_entry (m.handle_new_handler h env).1 h env mn hn hcl
    hm1 hh hhc hok3
  have hdrop := handle_drop_handler_removes (m.handle_new_handler h env).1 h
  refine ⟨huid.2, ?_, ?_, ?_, hdrop.1, hdrop.2, rfl⟩
  · rw [huid.1]
    rfl
  · rw [← hcore.2.2]
    exact hmk.2
  · rw [← hcore.2.2, hmk.1]
    rfl

/-- Witness for C2 at a concrete wired pair. -/
theorem wired_pair_unique_aliases_witness :
    llmCount (mC.handle_new_handler hC envOk).1.handler_aliases hC.uid = 1 ∧
    ((llmGet (mC.handle_new_handler hC envOk).1.handler_aliases hC.uid).map
      (fun a => a.target)) = some nodeH.id ∧
    llmCount ((mC.handle_new_handler hC envOk).1.make_alias hC
      envOk).method_aliases mC.addr = 1 ∧
    ((llmGet ((mC.handle_new_handler hC envOk).1.make_alias hC
      envOk).method_aliases mC.addr).map (fun a => a.target)) = some nodeM.id ∧
    llmGet (((mC.handle_new_handler hC envOk).1.handle_drop_handler
      hC).1).handler_aliases hC.uid = none ∧
    llmGet (((mC.handle_new_handler hC envOk).1.handle_drop_handler
      hC).1).handler_aliases (hC.uid ++ "-field") = none ∧
    (((mC.handle_new_handler hC envOk).1.make_alias hC
      envOk).destroyed).method_aliases = [] :=
  wired_pair_unique_aliases mC hC envOk nodeM nodeH 10 20 rfl rfl rfl rfl rfl
    rfl

/-- C3: when a new input method is created with `add_to`, then for every
handler in the registry snapshot (with pairwise non-colliding uids) whose
node is alive, the resulting method holds, under the handler uid, an alias of
the handler node exposing exactly the `get_transform` operation; and when the
field node of the handler is alive and the nested alias creation succeeds, it
additionally holds, under the uid with the `-field` suffix, an alias of the
field node mounted below the handler alias that uses the fixed shared
allowlist `FIELD_ALIAS_INFO`. -/
theorem add_to_wires_every_live_handler (node : NodeView)
    (addr spatial datamap : Nat) (data : InputDataType)
    (registry : List InputHandler) (env : String → AliasEnv) (c : Nat)
    (hc : node.client = some c) (hdisj : registry.Pairwise keyDisjoint)
    (h : InputHandler) (hmem : h ∈ registry) (hn : NodeView)
    (hhn : h.node = some hn) (hok : (env h.uid).handlerAliasOk = true) :
    llmGet (InputMethod.add_to node addr spatial data datamap registry
        env).1.handler_aliases h.uid =
      some { client := c, path := node.path ++ "/" ++ h.uid, target := hn.id,
             info := { server_signals := [],
                       server_methods := ["get_transform"] },
             enabled := true } ∧
    (∀ fn, h.field.node = some fn → (env h.uid).fieldAliasOk = true →
      llmGet (InputMethod.add_to node addr spatial data datamap registry
          env).1.handler_aliases (h.uid ++ "-field") =
        some { client := c, path := node.path ++ "/" ++ h.uid ++ "/" ++ "field",
               target := fn.id, info := FIELD_ALIAS_INFO, enabled := true }) :=
  wireAll_wires_member env node c hc h hn hhn hok registry _ rfl hdisj hmem

/-- Witness for C3 at a concrete one-handler registry. -/
theorem add_to_wires_every_live_handler_witness :
    llmGet (InputMethod.add_to nodeM 100 0 dataC 0 [hC]
        (fun _ => envOk)).1.handler_aliases hC.uid =
      some { client := 10, path := nodeM.path ++ "/" ++ hC.uid,
             target := nodeH.id,
             info := { server_signals := [],
                       server_methods := ["get_transform"] },
             enabled := true } ∧
    (∀ fn, hC.field.node = some fn → (envOk : AliasEnv).fieldAliasOk = true →
      llmGet (InputMethod.add_to nodeM 100 0 dataC 0 [hC]
          (fun _ => envOk)).1.handler_aliases (hC.uid ++ "-field") =
        some { client := 10,
               path := nodeM.path ++ "/" ++ hC.uid ++ "/" ++ "field",
               target := fn.id, info := FIELD_ALIAS_INFO, enabled := true }) :=
  add_to_wires_every_live_handler nodeM 100 0 0 dataC [hC] (fun _ => envOk)
    10 rfl (List.pairwise_singleton _ _) hC (List.mem_singleton.mpr rfl)
    nodeH rfl rfl

/-- C4: the handler→method alias created by `make_alias` is stored under the
address-derived key of the method in the map of the handler, exposes only the
`capture` operation in its allowlist (no server methods), and is created with
its enabled flag set to false. -/
theorem make_alias_capture_only_disabled (m : InputMethod) (h : InputHandler)
    (env : AliasEnv) (mn hn : NodeView) (c : Nat)
    (hm : m.node = some mn) (hh : h.node = some hn) (hc : hn.client = some c)
    (hok : env.methodAliasOk = true) :
    llmGet (m.make_alias h env).method_aliases m.addr =
      some { client := c, path := hn.path ++ "/" ++ m.uid, target := mn.id,
             info := { server_signals := ["capture"], server_methods := [] },
             enabled := false } :=
  (make_alias_entry m h env mn hn c hm hh hc hok).1

/-- Witness for C4 at a concrete pair. -/
theorem make_alias_capture_only_disabled_witness :
    llmGet (mC.make_alias hC envOk).method_aliases mC.addr =
      some { client := 20, path := nodeH.path ++ "/" ++ mC.uid,
             target := nodeM.id,
             info := { server_signals := ["capture"], server_methods := [] },
             enabled := false } :=
  make_alias_capture_only_disabled mC hC envOk nodeM nodeH 20 rfl rfl rfl rfl

/-- C5: `capture` fails, leaving the calling node (and hence the captures
set) unchanged, when the calling node lacks the InputMethod aspect or the
referenced node lacks the InputHandler aspect; when both aspects are present
it succeeds and inserts the handler into the captures set. -/
theorem capture_aspect_checks (node handler : NodeA) :
    ((node.inputMethod = none ∨ handler.inputHandler = none) →
      Except.isOk (InputMethod.capture node handler).1 = false ∧
      (InputMethod.capture node handler).2 = node) ∧
    (∀ im ih, node.inputMethod = some im → handler.inputHandler = some ih →
      (InputMethod.capture node handler).1 = Except.ok () ∧
      (InputMethod.capture node handler).2 =
        node.withMethod { im with captures := regAddRaw im.captures ih.uid } ∧
      ih.uid ∈ capturesOf (InputMethod.capture node handler).2) := by
  constructor
  · intro hcase
    rcases hcase with hm | hh
    · simp [InputMethod.capture, NodeA.get_aspect_method, hm, Except.isOk, Except.toBool]
    · cases hmn : node.inputMethod with
      | none =>
        simp [InputMethod.capture, NodeA.get_aspect_method, hmn, Except.isOk, Except.toBool]
      | some im =>
        simp [InputMethod.capture, NodeA.get_aspect_method,
          NodeA.get_aspect_handler, hmn, hh, Except.isOk, Except.toBool]
  · intro im ih hm hh
    refine ⟨?_, ?_, ?_⟩ <;>
      simp [InputMethod.capture, NodeA.get_aspect_method,
        NodeA.get_aspect_handler, hm, hh, capturesOf, NodeA.withMethod,
        regAddRaw_self_mem]

/-- Witness for C5: a concrete failing call (no InputMethod aspect) and a
concrete succeeding call. -/
theorem capture_aspect_checks_witness :
    (Except.isOk (InputMethod.capture nodeAH nodeAM).1 = false ∧
      (InputMethod.capture nodeAH nodeAM).2 = nodeAH) ∧
    ((InputMethod.capture nodeAM nodeAH).1 = Except.ok () ∧
      (InputMethod.capture nodeAM nodeAH).2 =
        nodeAM.withMethod { mC with captures := regAddRaw mC.captures hC.uid } ∧
      hC.uid ∈ capturesOf (InputMethod.capture nodeAM nodeAH).2) :=
  ⟨(capture_aspect_checks nodeAH nodeAM).1 (Or.inl rfl),
   (capture_aspect_checks nodeAM nodeAH).2 mC hC rfl rfl⟩

/-- C6: `capture` is idempotent and additive: capturing the same handler
twice in succession yields exactly the state of capturing it once, existing
captures members are never removed, and the captured handler is a member
afterwards. -/
theorem capture_idempotent_additive (node handler : NodeA) (im : InputMethod)
    (ih : InputHandler) (hm : node.inputMethod = some im)
    (hh : handler.inputHandler = some ih) :
    (InputMethod.capture (InputMethod.capture node handler).2 handler).2 =
      (InputMethod.capture node handler).2 ∧
    (∀ u, u ∈ im.captures →
      u ∈ capturesOf (InputMethod.capture node handler).2) ∧
    ih.uid ∈ capturesOf (InputMethod.capture node handler).2 := by
  refine ⟨?_, ?_, ?_⟩
  · simp [InputMethod.capture, NodeA.get_aspect_method,
      NodeA.get_aspect_handler, hm, hh, NodeA.withMethod, regAddRaw_idem]
  · intro u hu
    simp only [InputMethod.capture, NodeA.get_aspect_method,
      NodeA.get_aspect_handler, hm, hh, NodeA.withMethod, capturesOf]
    exact regAddRaw_mem _ _ _ hu
  · simp only [InputMethod.capture, NodeA.get_aspect_method,
      NodeA.get_aspect_handler, hm, hh, NodeA.withMethod, capturesOf]
    exact regAddRaw_self_mem _ _

/-- Witness for C6 at a concrete method node and handler node. -/
theorem capture_idempotent_additive_witness :
    (InputMethod.capture (InputMethod.capture nodeAM nodeAH).2 nodeAH).2 =
      (InputMethod.capture nodeAM nodeAH).2 ∧
    hC.uid ∈ capturesOf (InputMethod.capture nodeAM nodeAH).2 :=
  ⟨(capture_idempotent_additive nodeAM nodeAH mC hC rfl rfl).1,
   (capture_idempotent_additive nodeAM nodeAH mC hC rfl rfl).2.2⟩

/-- C7: calling `set_handler_order` with an absent list stores `none` and
calling it with an empty list stores `some []`; both stored states make the
ranking consumer use automatic distance-based ranking. -/
theorem set_handler_order_empty_absent_reverts (node : NodeA)
    (im : InputMethod) (hm : node.inputMethod = some im) :
    handlerOrderOf (InputMethod.set_handler_order node none).2 = none ∧
    handlerOrderOf (InputMethod.set_handler_order node (some [])).2 =
      some [] ∧
    usesAutomaticRanking
      (handlerOrderOf (InputMethod.set_handler_order node none).2) = true ∧
    usesAutomaticRanking
      (handlerOrderOf (InputMethod.set_handler_order node (some [])).2) =
      true := by
  refine ⟨?_, ?_, ?_, ?_⟩ <;>
    simp [InputMethod.set_handler_order, NodeA.get_aspect_method, hm,
      NodeA.withMethod, handlerOrderOf, usesAutomaticRanking]

/-- Witness for C7 at a concrete method node. -/
theorem set_handler_order_empty_absent_reverts_witness :
    handlerOrderOf (InputMethod.set_handler_order nodeAM none).2 = none ∧
    handlerOrderOf (InputMethod.set_handler_order nodeAM (some [])).2 =
      some [] ∧
    usesAutomaticRanking
      (handlerOrderOf (InputMethod.set_handler_order nodeAM none).2) = true ∧
    usesAutomaticRanking
      (handlerOrderOf (InputMethod.set_handler_order nodeAM (some [])).2) =
      true :=
  set_handler_order_empty_absent_reverts nodeAM mC rfl

/-- C8: `set_handler_order` with a supplied list succeeds and stores, in
order, exactly the entries whose node carries the InputHandler aspect;
entries lacking the aspect are silently dropped rather than rejected. -/
theorem set_handler_order_filters_invalid (node : NodeA) (im : InputMethod)
    (l : List NodeA) (hm : node.inputMethod = some im) :
    (InputMethod.set_handler_order node (some l)).1 = Except.ok () ∧
    handlerOrderOf (InputMethod.set_handler_order node (some l)).2 =
      some (validHandlers l) := by
  constructor <;>
    simp [InputMethod.set_handler_order, NodeA.get_aspect_method, hm,
      NodeA.withMethod, handlerOrderOf, filterMap_eq_validHandlers]

/-- Witness for C8: a mixed list with one invalid entry is filtered, in
order, and the call succeeds. -/
theorem set_handler_order_filters_invalid_witness :
    (InputMethod.set_handler_order nodeAM (some [nodeAH, nodeAM, nodeAH])).1 =
      Except.ok () ∧
    handlerOrderOf (InputMethod.set_handler_order nodeAM
      (some [nodeAH, nodeAM, nodeAH])).2 =
      some (validHandlers [nodeAH, nodeAM, nodeAH]) :=
  set_handler_order_filters_invalid nodeAM mC [nodeAH, nodeAM, nodeAH] rfl

/-- C9 counterexample: with a live method and handler, a successful handler
alias and a failed nested field alias, the wiring run adds the handler alias
but sends no creation notice at all, contradicting the claim that the
best-effort creation notice is still performed after a failed nested field
alias. -/
theorem field_alias_failure_skips_notice_cex :
    (mC.handle_new_handler hC envFieldFail).2 = [] ∧
    llmGet (mC.handle_new_handler hC envFieldFail).1.handler_aliases "h1" ≠
      none := by
  constructor
  · rfl
  · decide

/-- C9 (amended): a failure during wiring is swallowed and never returned as
an error to the caller; it aborts the remainder of that wiring routine while
keeping the steps already performed: after a failed nested field alias the
handler alias entry is kept, the field entry is not added, and the creation
notice is not sent. -/
theorem wiring_failure_swallowed_aborts_rest (m : InputMethod)
    (h : InputHandler) (env : AliasEnv) (mn hn fn : NodeView) (mc : Nat)
    (hm : m.node = some mn) (hmc : mn.client = some mc)
    (hh : h.node = some hn) (hok : env.handlerAliasOk = true)
    (hf : h.field.node = some fn) (hfail : env.fieldAliasOk = false) :
    (m.handle_new_handler h env).2 = [] ∧
    llmGet (m.handle_new_handler h env).1.handler_aliases h.uid =
      some { client := mc, path := mn.path ++ "/" ++ h.uid, target := hn.id,
             info := { server_signals := [],
                       server_methods := ["get_transform"] },
             enabled := true } ∧
    llmGet (m.handle_new_handler h env).1.handler_aliases (h.uid ++ "-field") =
      llmGet m.handler_aliases (h.uid ++ "-field") := by
  simp only [InputMethod.handle_new_handler, hm, hmc, hh, hok, hf, hfail,
    Alias.create]
  exact ⟨trivial, llmGet_add_self _ _ _,
    llmGet_add_ne _ _ _ _ (Ne.symm (string_ne_append_field h.uid))⟩

/-- Witness for the amended C9 at a concrete wiring attempt whose nested
field alias fails. -/
theorem wiring_failure_swallowed_aborts_rest_witness :
    (mC.handle_new_handler hC envFieldFail).2 = [] ∧
    llmGet (mC.handle_new_handler hC envFieldFail).1.handler_aliases hC.uid =
      some { client := 10, path := nodeM.path ++ "/" ++ hC.uid,
             target := nodeH.id,
             info := { server_signals := [],
                       server_methods := ["get_transform"] },
             enabled := true } ∧
    llmGet (mC.handle_new_handler hC envFieldFail).1.handler_aliases
      (hC.uid ++ "-field") = llmGet mC.handler_aliases (hC.uid ++ "-field") :=
  wiring_failure_swallowed_aborts_rest mC hC envFieldFail nodeM nodeH nodeF
    10 rfl rfl rfl rfl rfl rfl

/-- C10: for every mapped toplevel surface, `start_data` returns a
`ToplevelInfo` whose `title` field holds the string stored as the app id of
the surface and whose `app_id` field holds the string stored as the title of
the surface: the two values are read from swapped fields. -/
theorem start_data_swaps_title_app_id (surface : XdgToplevelSurfaceData) :
    (XdgBackend.start_data surface).title = surface.app_id ∧
    (XdgBackend.start_data surface).app_id = surface.title :=
  ⟨rfl, rfl⟩

end Stardust
